import Mathlib

/-!
Verification development for the `graceful-shutdown` process-termination tool.

The Rust sources are shallowly embedded here:
* `src/signal.rs`   — the signal catalog (`Signal`);
* `src/processes.rs` — process snapshots, `/proc` enumeration, signal delivery
  (`Process`, `ProcessIterator`, `KillError`, `parse_cmdline`);
* `src/matcher.rs`  — pattern matching (`MatchMode`, `Matcher`);
* `src/main.rs`     — the escalation engine (`real_run`, `dry_run`, `run`,
  `send_with_error_handling`, `all_processes`).

The operating system is modelled by a `World` giving the outcome of the
`kill(2)` syscall for each pid/signal and the liveness of each pid at each
poll round.  Real time is modelled by the number of iterations the wait loop
performs before the wait duration elapses (the code sleeps 100 ms between
polls, so a positive wait duration admits at least one poll).  All console
output is irrelevant to the claims and is not modelled; the externally
observable side effects (signal sends, liveness polls, dry-run reports) are
recorded as an explicit event trace.
-/

namespace GracefulShutdown

/-- The signal catalog, from the `basename` match in `src/signal.rs` (the
variants of `nix::sys::signal::Signal` that the tool supports). -/
inductive Signal where
  | SIGABRT | SIGALRM | SIGHUP | SIGINT | SIGKILL | SIGQUIT | SIGSTOP
  | SIGTERM | SIGUSR1 | SIGUSR2 | SIGILL | SIGTRAP | SIGBUS | SIGFPE
  | SIGSEGV | SIGPIPE | SIGSTKFLT | SIGCHLD | SIGCONT | SIGTSTP | SIGTTIN
  | SIGTTOU | SIGURG | SIGXCPU | SIGXFSZ | SIGVTALRM | SIGPROF | SIGWINCH
  | SIGIO | SIGPWR | SIGSYS
deriving DecidableEq

/-- The OS error codes distinguished by `Process::send` in `src/processes.rs`:
`EINVAL`, `EPERM`, `ESRCH`, and any other errno (carried with its display
text, used to build the `UnexpectedError` message). -/
inductive Errno where
  | EINVAL
  | EPERM
  | ESRCH
  | other (desc : String)
deriving DecidableEq

/-- Per-send failure taxonomy, from `enum KillError` in `src/processes.rs`. -/
inductive KillError where
  | InvalidSignal
  | NoPermission
  | DoesNotExist
  | UnexpectedError (message : String)
deriving DecidableEq

/-- The operating-system environment of one run: the outcome of `kill(pid,
signal)` (`none` = the OS accepted the signal) and, for each liveness-poll
round `t`, whether `/proc/<pid>` still exists. -/
structure World where
  kill : Int → Signal → Option Errno
  alive : Nat → Int → Bool

/-- Embeds `struct Process` from `src/processes.rs`: pid, owning user id, executable
basename and reconstructed command line. -/
structure Process where
  pid : Int
  user_id : Nat
  name : String
  cmdline : String
deriving DecidableEq

/-- Accessor `Process::commandline` from `src/processes.rs`. -/
def Process.commandline (p : Process) : String :=
  p.cmdline

/-- Embeds `Process::send` from `src/processes.rs`: issue the `kill` syscall and map
the errno to a `KillError`. -/
def Process.send (w : World) (p : Process) (signal : Signal) :
    Except KillError Unit :=
  match w.kill p.pid signal with
  | none => Except.ok ()
  | some Errno.EINVAL => Except.error KillError.InvalidSignal
  | some Errno.EPERM => Except.error KillError.NoPermission
  | some Errno.ESRCH => Except.error KillError.DoesNotExist
  | some (Errno.other desc) =>
      Except.error (KillError.UnexpectedError ("errno " ++ desc))

/-- Embeds `Process::is_alive` from `src/processes.rs`: re-check `/proc/<pid>`
presence, at poll round `t` of the current run. -/
def Process.is_alive (w : World) (t : Nat) (p : Process) : Bool :=
  w.alive t p.pid

/-- Embeds `enum MatchMode` from `src/matcher.rs`. -/
inductive MatchMode where
  | Basename
  | Commandline
deriving DecidableEq

/-- Does `needle` occur as a contiguous subsequence of `haystack`?  Helper for
the regex model below. -/
def occurs_in (needle : List Char) : List Char → Bool
  | [] => needle.isEmpty
  | c :: rest => needle.isPrefixOf (c :: rest) || occurs_in needle rest

/-- ASCII case folding, the case-insensitivity the claims exercise. -/
def ascii_to_lower (c : Char) : Char :=
  if 'A' ≤ c && c ≤ 'Z' then Char.ofNat (c.toNat + 32) else c

/-- A string's characters, case-folded. -/
def lower_chars (s : String) : List Char :=
  s.toList.map ascii_to_lower

/-- Modelled from the spec: the external regex engine (`regex::RegexSet` built
with `case_insensitive(true)`, not part of this repository).  Per the spec, a
pattern matches iff it matches as a substring (not full-string) anywhere in
the target, case-insensitively; the pattern language itself is out of scope,
so a pattern is modelled as a literal string. -/
def regex_matches (pattern target : String) : Bool :=
  occurs_in (lower_chars pattern) (lower_chars target)

/-- Modelled from the spec: a compiled `regex::RegexSet` is its list of
patterns, in order. -/
def RegexSet : Type :=
  List String

/-- Modelled from the spec: `RegexSet::is_match` is true iff at least one
pattern of the set matches the target. -/
def RegexSet.is_match (regex_set : RegexSet) (target : String) : Bool :=
  List.any regex_set (fun pattern => regex_matches pattern target)

/-- Embeds `struct Matcher` from `src/matcher.rs`. -/
structure Matcher where
  regex_set : RegexSet
  mode : MatchMode

/-- Embeds `Matcher::is_match` from `src/matcher.rs`: test the field selected by the
mode against the pattern set. -/
def Matcher.is_match (m : Matcher) (process : Process) : Bool :=
  match m.mode with
  | MatchMode.Basename => RegexSet.is_match m.regex_set process.name
  | MatchMode.Commandline => RegexSet.is_match m.regex_set process.commandline

/-- The code points of Rust's `char::is_whitespace` (the Unicode
`White_Space` property), used by `str::trim_end`. -/
def rust_whitespace_codes : List Nat :=
  [0x09, 0x0A, 0x0B, 0x0C, 0x0D, 0x20, 0x85, 0xA0, 0x1680,
   0x2000, 0x2001, 0x2002, 0x2003, 0x2004, 0x2005, 0x2006, 0x2007,
   0x2008, 0x2009, 0x200A, 0x2028, 0x2029, 0x202F, 0x205F, 0x3000]

/-- Rust's `char::is_whitespace`. -/
def rust_char_is_whitespace (c : Char) : Bool :=
  rust_whitespace_codes.contains c.toNat

/-- Rust's `str::replace("\0", " ")` for the single-character pattern used by
`parse_cmdline`: replace each NUL character by one ASCII space. -/
def replace_nul (s : String) : String :=
  String.mk (s.toList.map (fun c => if c = Char.ofNat 0 then ' ' else c))

/-- Rust's `str::trim_end`: drop trailing whitespace. -/
def trim_end (s : String) : String :=
  String.mk (s.toList.reverse.dropWhile rust_char_is_whitespace).reverse

/-- Embeds `parse_cmdline` from `src/processes.rs`:
`cmdline.replace("\0", " ").trim_end()`. -/
def parse_cmdline (cmdline : String) : String :=
  trim_end (replace_nul cmdline)

/-- One candidate `/proc` directory entry as `src/processes.rs` observes it:
its file name, whether it is a directory, and the outcomes of the three OS
reads `from_entry` performs (`read_link(exe)`, reading `cmdline`, and
`stat`-ing the directory for the owner uid).  A `none` field is the
corresponding read failing (permission denied, vanished mid-read, ...). -/
structure EntryData where
  file_name : String
  is_dir : Bool
  exe_link : Option String
  cmdline_file : Option String
  stat_uid : Option Nat
deriving DecidableEq

/-- Embeds `has_numeric_name` from `src/processes.rs`: every byte of the entry's
file name is an ASCII digit. -/
def has_numeric_name (e : EntryData) : Bool :=
  e.file_name.toList.all (fun c => c.isDigit)

/-- Rust's `str::parse::<i32>`, used for the pid in `Process::from_entry`:
an optional sign followed by at least one ASCII digit, rejecting values
outside the `i32` range. -/
def parse_pid (s : String) : Option Int :=
  let cs := s.toList
  let signed : Int × List Char :=
    match cs with
    | c :: rest =>
      if c = '+' then (1, rest)
      else if c = '-' then (-1, rest)
      else (1, cs)
    | [] => (1, cs)
  let digits := signed.2
  if digits.isEmpty || !digits.all (fun c => c.isDigit) then none
  else
    let n : Nat := digits.foldl (fun acc c => acc * 10 + (c.toNat - 48)) 0
    let v : Int := signed.1 * (n : Int)
    if -2147483648 ≤ v ∧ v ≤ 2147483647 then some v else none

/-- Split a character list at every occurrence of `sep`. -/
def split_char (sep : Char) : List Char → List (List Char)
  | [] => [[]]
  | c :: rest =>
    let r := split_char sep rest
    if c = sep then [] :: r
    else
      match r with
      | [] => [[c]]
      | h :: t => (c :: h) :: t

/-- Rust's `Path::file_name`: the last normal component of the path, or
`none` when the path has no normal components or ends in `..` (`.` and empty
components are not real components). -/
def path_file_name (p : String) : Option String :=
  let comps :=
    ((split_char '/' p.toList).map String.mk).filter
      (fun c => c ≠ "" && c ≠ ".")
  match comps.getLast? with
  | some last => if last = ".." then none else some last
  | none => none

/-- Embeds `Process::from_entry` from `src/processes.rs`: parse the pid from the
entry name, resolve the executable link, take its basename (falling back to
the whole path), read and reconstruct the command line, and stat the owner
uid; the first failing step aborts with its error message. -/
def Process.from_entry (e : EntryData) : Except String Process :=
  match parse_pid e.file_name with
  | none => Except.error ("Failed to parse PID in " ++ e.file_name)
  | some pid =>
    match e.exe_link with
    | none =>
        Except.error ("Failed to determine executable of PID " ++ toString pid)
    | some exe =>
      let name := (path_file_name exe).getD exe
      match e.cmdline_file with
      | none => Except.error "Could not read file cmdline"
      | some raw =>
        let cmdline := parse_cmdline raw
        match e.stat_uid with
        | none => Except.error "Could not stat entry"
        | some uid =>
            Except.ok { pid := pid, user_id := uid, name := name,
                        cmdline := cmdline }

/-- Embeds `ProcessIterator::next` from `src/processes.rs`, unrolled over the whole
`read_dir` stream: a `none` stream item is a `read_dir` error (skipped);
entries that are not directories or not numerically named are skipped; every
remaining candidate yields the result of `Process::from_entry`, errors
included. -/
def process_iterator : List (Option EntryData) → List (Except String Process)
  | [] => []
  | none :: rest => process_iterator rest
  | some e :: rest =>
    if e.is_dir && has_numeric_name e then
      Process.from_entry e :: process_iterator rest
    else
      process_iterator rest

/-- Embeds `UserFilter::next` from `src/processes.rs`: keep only processes owned by
the given user.  (Error items pass through unchanged.) -/
def user_filter (user : Nat) :
    List (Except String Process) → List (Except String Process)
  | [] => []
  | Except.ok p :: rest =>
    if p.user_id = user then Except.ok p :: user_filter user rest
    else user_filter user rest
  | Except.error msg :: rest => Except.error msg :: user_filter user rest

/-- Embeds `Process::all` from `src/processes.rs`: a hard error exactly when the
process-table root (`/proc`) cannot be opened (`proc_root = none`); otherwise
the per-entry result sequence. -/
def Process.all (proc_root : Option (List (Option EntryData))) :
    Except String (List (Except String Process)) :=
  match proc_root with
  | none => Except.error "Failed to read /proc"
  | some entries => Except.ok (process_iterator entries)

/-- Embeds `all_processes` from `src/main.rs`, given the enumerated sequence: drop
the per-entry errors (`flat_map(Result::ok)`) and keep the processes the
matcher selects, in discovery order. -/
def all_processes (entries : List (Option EntryData)) (matcher : Matcher) :
    List Process :=
  ((process_iterator entries).filterMap fun r => r.toOption).filter
    (fun process => matcher.is_match process)

/-- Embeds `enum OutputMode` from `src/options.rs`. -/
inductive OutputMode where
  | Normal
  | Verbose
  | Quiet
deriving DecidableEq

/-- Embeds `OutputMode::show_normal` from `src/options.rs`. -/
def OutputMode.show_normal : OutputMode → Bool
  | OutputMode.Verbose => true
  | OutputMode.Normal => true
  | OutputMode.Quiet => false

/-- The output-mode derivation in `Options::from` (`src/options.rs`), as a
function of the `dry_run`, `verbose` and `quiet` CLI flags: dry-run forces
verbose output; the `verbose`/`quiet` combination is made unreachable by the
CLI parser and is mapped to `none`. -/
def output_mode_from (d v q : Bool) : Option OutputMode :=
  match d, v, q with
  | true, _, _ => some OutputMode.Verbose
  | false, false, false => some OutputMode.Normal
  | false, true, false => some OutputMode.Verbose
  | false, false, true => some OutputMode.Quiet
  | false, true, true => none

/-- Embeds `struct Options` from `src/options.rs`, restricted to the fields the
engine reads.  `wait_time = none` is a non-positive `--wait-time` (do not
wait); `wait_time = some fuel` is a positive wait duration that admits `fuel`
iterations of the 100 ms poll loop before it elapses. -/
structure Options where
  dry_run : Bool
  kill : Bool
  kill_signal : Signal
  match_mode : MatchMode
  output_mode : OutputMode
  terminate_signal : Signal
  user : Option Nat
  wait_time : Option Nat

/-- The externally observable side effects of a run: an issued `kill`
syscall, a liveness poll of `/proc/<pid>`, or a dry-run "would have sent"
report. -/
inductive Event where
  | wouldSend (signal : Signal) (pid : Int)
  | send (signal : Signal) (pid : Int)
  | poll (pid : Int)
deriving DecidableEq

/-- Is this event an issued signal-send syscall? -/
def Event.isSend : Event → Bool
  | Event.send _ _ => true
  | _ => false

/-- Is this event a liveness poll? -/
def Event.isPoll : Event → Bool
  | Event.poll _ => true
  | _ => false

/-- Embeds `send_with_error_handling` from `src/main.rs`: true on OS acceptance and
on `DoesNotExist` (the process already quit — fine); false on every other
send failure. -/
def send_with_error_handling (w : World) (signal : Signal) (p : Process) :
    Bool :=
  match Process.send w p signal with
  | Except.ok _ => true
  | Except.error KillError.DoesNotExist => true
  | Except.error _ => false

/-- The first `processes.retain` of `real_run` (`src/main.rs`): send the
terminate signal to every process in order, keep those whose send was
handled, and clear the success flag for each one dropped.  Returns the
retained list, the success flag contribution, and the sends issued. -/
def terminate_phase (w : World) (signal : Signal) :
    List Process → List Process × Bool × List Event
  | [] => ([], true, [])
  | p :: rest =>
    let ok := send_with_error_handling w signal p
    let r := terminate_phase w signal rest
    (if ok then p :: r.1 else r.1, ok && r.2.1,
     Event.send signal p.pid :: r.2.2)

/-- The `processes.retain(|process| process.is_alive())` step of the wait
loop (`src/main.rs`), at poll round `t`: drop the processes now dead,
recording one liveness poll per tracked process. -/
def wait_poll (w : World) (t : Nat) :
    List Process → List Process × List Event
  | [] => ([], [])
  | p :: rest =>
    let a := Process.is_alive w t p
    let r := wait_poll w t rest
    (if a then p :: r.1 else r.1, Event.poll p.pid :: r.2)

/-- The force-kill loop of `real_run` (`src/main.rs`): send the kill signal
to every still-tracked process in order; any unhandled send clears the
success flag. -/
def kill_phase (w : World) (signal : Signal) :
    List Process → Bool × List Event
  | [] => (true, [])
  | p :: rest =>
    let ok := send_with_error_handling w signal p
    let r := kill_phase w signal rest
    (ok && r.1, Event.send signal p.pid :: r.2)

/-- The `while start.elapsed() < wait_time` loop of `real_run`
(`src/main.rs`).  `fuel` is the number of poll iterations the wait duration
still admits and `t` the current poll round.  Each iteration sleeps, drops
dead processes, and returns early when the tracked set empties; once time is
up the survivors are force-killed (if enabled) or the run is marked failed. -/
def wait_loop (w : World) (opts : Options) :
    Nat → List Process → Bool → Nat → Bool × List Event
  | 0, procs, success, _ =>
    if opts.kill then
      let r := kill_phase w opts.kill_signal procs
      (success && r.1, r.2)
    else
      (false, [])
  | fuel + 1, procs, success, t =>
    let pr := wait_poll w t procs
    if pr.1.isEmpty then
      (success, pr.2)
    else
      let r := wait_loop w opts fuel pr.1 success (t + 1)
      (r.1, pr.2 ++ r.2)

/-- Embeds `real_run` from `src/main.rs`: terminate phase, then (when a wait
duration is set) the wait loop with its timeout handling. -/
def real_run (w : World) (opts : Options) (procs : List Process) :
    Bool × List Event :=
  let ph := terminate_phase w opts.terminate_signal procs
  match opts.wait_time with
  | none => (ph.2.1, ph.2.2)
  | some fuel =>
    let r := wait_loop w opts fuel ph.1 ph.2.1 0
    (r.1, ph.2.2 ++ r.2)

/-- Embeds `dry_run` from `src/main.rs`: never send anything; report each selected
process as "would have sent" (skipped entirely when output is suppressed) and
succeed. -/
def dry_run (opts : Options) (procs : List Process) : Bool × List Event :=
  if !opts.output_mode.show_normal then
    (true, [])
  else
    (true, procs.map (fun p => Event.wouldSend opts.terminate_signal p.pid))

/-- The dispatch at the end of `run` (`src/main.rs`), over an already
selected process list. -/
def run (w : World) (opts : Options) (procs : List Process) :
    Bool × List Event :=
  if opts.dry_run then dry_run opts procs else real_run w opts procs

/-- The tracked set after `k` further poll rounds starting from list `l` at
round `t`: the iterated `wait_poll` filtering. -/
def iter_tracked (w : World) : Nat → Nat → List Process → List Process
  | 0, _, l => l
  | k + 1, t, l => iter_tracked w k (t + 1) (wait_poll w t l).1

/-- The tracked set of a run after the terminate phase and `k` poll rounds. -/
def tracked_after (w : World) (signal : Signal) (procs : List Process)
    (k : Nat) : List Process :=
  iter_tracked w k 0 (terminate_phase w signal procs).1

/-- The liveness-poll events of `k` poll rounds starting from list `l` at
round `t`. -/
def poll_events (w : World) : Nat → Nat → List Process → List Event
  | 0, _, _ => []
  | k + 1, t, l =>
    (wait_poll w t l).2 ++ poll_events w k (t + 1) (wait_poll w t l).1

/-- The outcome of the timeout branch of the wait loop: with force-kill
enabled, success requires every kill-phase send to be handled; with it
disabled the run fails. -/
def timeout_success (w : World) (opts : Options) (survivors : List Process)
    (success : Bool) : Bool :=
  if opts.kill then
    success && (kill_phase w opts.kill_signal survivors).1
  else
    false

/-- The events of the timeout branch of the wait loop: the kill dispatches
when force-kill is enabled, nothing otherwise. -/
def timeout_events (w : World) (opts : Options) (survivors : List Process) :
    List Event :=
  if opts.kill then (kill_phase w opts.kill_signal survivors).2 else []

/-- The run's success flag in closed form (the amended success condition):
every terminate-phase send handled and, when a wait duration is set, either
the tracked set was emptied within the wait window or force-kill was enabled
and every kill-phase send to the survivors was handled. -/
def run_success_spec (w : World) (opts : Options) (procs : List Process) :
    Bool :=
  procs.all (send_with_error_handling w opts.terminate_signal) &&
    match opts.wait_time with
    | none => true
    | some fuel =>
      (tracked_after w opts.terminate_signal procs fuel).isEmpty ||
        (opts.kill &&
          (tracked_after w opts.terminate_signal procs fuel).all
            (send_with_error_handling w opts.kill_signal))

/-- The success condition exactly as the specification words it: every
selected process was either successfully signaled and confirmed dead (when a
wait duration is set) or successfully signaled (when not waiting), and no
force-kill was needed but skipped.  "Confirmed dead" is being observed dead
by some liveness poll within the wait window; "needed but skipped" is a
timeout with survivors while force-kill is disabled. -/
def spec_success_literal (w : World) (opts : Options) (procs : List Process) :
    Bool :=
  (procs.all fun p =>
    match opts.wait_time with
    | some fuel =>
      send_with_error_handling w opts.terminate_signal p &&
        (List.range fuel).any (fun t => !(Process.is_alive w t p))
    | none => send_with_error_handling w opts.terminate_signal p) &&
  !(match opts.wait_time with
    | some fuel =>
      !opts.kill &&
        !(tracked_after w opts.terminate_signal procs fuel).isEmpty
    | none => false)

/-! ### Characterization lemmas for the engine's phases -/

theorem terminate_phase_fst (w : World) (signal : Signal)
    (procs : List Process) :
    (terminate_phase w signal procs).1 =
      procs.filter (send_with_error_handling w signal) := by
  induction procs with
  | nil => rfl
  | cons p rest ih =>
    simp only [terminate_phase, List.filter_cons, ih]

theorem terminate_phase_success (w : World) (signal : Signal)
    (procs : List Process) :
    (terminate_phase w signal procs).2.1 =
      procs.all (send_with_error_handling w signal) := by
  induction procs with
  | nil => rfl
  | cons p rest ih =>
    simp only [terminate_phase, List.all_cons, ih]

theorem terminate_phase_events (w : World) (signal : Signal)
    (procs : List Process) :
    (terminate_phase w signal procs).2.2 =
      procs.map (fun p => Event.send signal p.pid) := by
  induction procs with
  | nil => rfl
  | cons p rest ih =>
    simp only [terminate_phase, List.map_cons, ih]

theorem wait_poll_fst (w : World) (t : Nat) (l : List Process) :
    (wait_poll w t l).1 = l.filter (fun p => Process.is_alive w t p) := by
  induction l with
  | nil => rfl
  | cons p rest ih =>
    simp only [wait_poll, List.filter_cons, ih]

theorem wait_poll_events (w : World) (t : Nat) (l : List Process) :
    (wait_poll w t l).2 = l.map (fun p => Event.poll p.pid) := by
  induction l with
  | nil => rfl
  | cons p rest ih =>
    simp only [wait_poll, List.map_cons, ih]

theorem kill_phase_fst (w : World) (signal : Signal) (l : List Process) :
    (kill_phase w signal l).1 =
      l.all (send_with_error_handling w signal) := by
  induction l with
  | nil => rfl
  | cons p rest ih =>
    simp only [kill_phase, List.all_cons, ih]

theorem kill_phase_events (w : World) (signal : Signal) (l : List Process) :
    (kill_phase w signal l).2 =
      l.map (fun p => Event.send signal p.pid) := by
  induction l with
  | nil => rfl
  | cons p rest ih =>
    simp only [kill_phase, List.map_cons, ih]

theorem iter_tracked_nil (w : World) (k t : Nat) :
    iter_tracked w k t [] = [] := by
  induction k generalizing t with
  | zero => rfl
  | succ k ih => simp only [iter_tracked, wait_poll]; exact ih (t + 1)

theorem iter_tracked_succ_last (w : World) (k t : Nat) (l : List Process) :
    iter_tracked w (k + 1) t l =
      (wait_poll w (t + k) (iter_tracked w k t l)).1 := by
  induction k generalizing t l with
  | zero => rfl
  | succ k ih =>
    show iter_tracked w (k + 1) (t + 1) (wait_poll w t l).1 = _
    rw [ih (t + 1) (wait_poll w t l).1]
    have harith : t + 1 + k = t + (k + 1) := by omega
    rw [harith]
    rfl

theorem iter_tracked_comp (w : World) (a b t : Nat) (l : List Process) :
    iter_tracked w (a + b) t l =
      iter_tracked w b (t + a) (iter_tracked w a t l) := by
  induction a generalizing t l with
  | zero => simp [iter_tracked]
  | succ a ih =>
    have h1 : a + 1 + b = (a + b) + 1 := by omega
    rw [h1]
    show iter_tracked w (a + b) (t + 1) (wait_poll w t l).1 = _
    rw [ih (t + 1) (wait_poll w t l).1]
    have h2 : t + 1 + a = t + (a + 1) := by omega
    rw [h2]
    rfl

theorem iter_tracked_ne_nil_down (w : World) (j k t : Nat) (l : List Process)
    (hjk : j ≤ k) (hne : iter_tracked w k t l ≠ []) :
    iter_tracked w j t l ≠ [] := by
  intro hempty
  apply hne
  obtain ⟨d, hd⟩ : ∃ d, k = j + d := ⟨k - j, by omega⟩
  rw [hd, iter_tracked_comp, hempty, iter_tracked_nil]

theorem wait_loop_timeout (w : World) (opts : Options) :
    ∀ (fuel : Nat) (l : List Process) (success : Bool) (t : Nat),
      iter_tracked w fuel t l ≠ [] →
      wait_loop w opts fuel l success t =
        (timeout_success w opts (iter_tracked w fuel t l) success,
         poll_events w fuel t l ++
           timeout_events w opts (iter_tracked w fuel t l)) := by
  intro fuel
  induction fuel with
  | zero =>
    intro l success t _
    show wait_loop w opts 0 l success t = _
    simp only [wait_loop, timeout_success, timeout_events, iter_tracked,
      poll_events, List.nil_append]
    cases opts.kill <;> simp
  | succ fuel ih =>
    intro l success t hne
    have hiter : iter_tracked w (fuel + 1) t l =
        iter_tracked w fuel (t + 1) (wait_poll w t l).1 := rfl
    have hnext : iter_tracked w fuel (t + 1) (wait_poll w t l).1 ≠ [] := by
      rw [← hiter]; exact hne
    have hpr : (wait_poll w t l).1 ≠ [] := by
      intro hempty
      apply hnext
      rw [hempty, iter_tracked_nil]
    show wait_loop w opts (fuel + 1) l success t = _
    simp only [wait_loop]
    rw [if_neg (by simpa using hpr)]
    rw [ih (wait_poll w t l).1 success (t + 1) hnext]
    simp only [hiter, poll_events, List.append_assoc]

theorem wait_loop_emptied (w : World) (opts : Options) :
    ∀ (fuel : Nat) (l : List Process) (success : Bool) (t : Nat),
      fuel ≠ 0 → iter_tracked w fuel t l = [] →
      (wait_loop w opts fuel l success t).1 = success := by
  intro fuel
  induction fuel with
  | zero => intro _ _ _ h; exact absurd rfl h
  | succ fuel ih =>
    intro l success t _ hempty
    show (wait_loop w opts (fuel + 1) l success t).1 = success
    simp only [wait_loop]
    by_cases hpr : (wait_poll w t l).1 = []
    · rw [if_pos (by simpa using hpr)]
    · rw [if_neg (by simpa using hpr)]
      have hfz : fuel ≠ 0 := by
        intro hf0
        apply hpr
        have : iter_tracked w (fuel + 1) t l =
            iter_tracked w fuel (t + 1) (wait_poll w t l).1 := rfl
        rw [this, hf0] at hempty
        exact hempty
      exact ih (wait_poll w t l).1 success (t + 1) hfz hempty

theorem wait_loop_false (w : World) (opts : Options) :
    ∀ (fuel : Nat) (l : List Process) (t : Nat),
      (wait_loop w opts fuel l false t).1 = false := by
  intro fuel
  induction fuel with
  | zero =>
    intro l t
    show (wait_loop w opts 0 l false t).1 = false
    simp only [wait_loop]
    cases opts.kill <;> simp
  | succ fuel ih =>
    intro l t
    show (wait_loop w opts (fuel + 1) l false t).1 = false
    simp only [wait_loop]
    by_cases hpr : (wait_poll w t l).1 = []
    · rw [if_pos (by simpa using hpr)]
    · rw [if_neg (by simpa using hpr)]
      exact ih (wait_poll w t l).1 (t + 1)

theorem poll_events_no_send (w : World) :
    ∀ (k t : Nat) (l : List Process),
      (poll_events w k t l).filter Event.isSend = [] := by
  intro k
  induction k with
  | zero => intro t l; rfl
  | succ k ih =>
    intro t l
    show ((wait_poll w t l).2 ++ _).filter Event.isSend = []
    rw [List.filter_append, ih (t + 1) (wait_poll w t l).1,
      wait_poll_events]
    simp [List.filter_eq_nil_iff, Event.isSend]

/-! ### Helper lemmas for `parse_cmdline` -/

theorem dropWhile_dropWhile_self (p : Char → Bool) (l : List Char) :
    (l.dropWhile p).dropWhile p = l.dropWhile p := by
  induction l with
  | nil => rfl
  | cons c rest ih =>
    rw [List.dropWhile_cons]
    by_cases h : p c = true
    · rw [if_pos h]; exact ih
    · rw [if_neg h, List.dropWhile_cons, if_neg h]

theorem nul_map_idem (c : Char) :
    (fun c => if c = Char.ofNat 0 then ' ' else c)
        ((fun c => if c = Char.ofNat 0 then ' ' else c) c) =
      (fun c => if c = Char.ofNat 0 then ' ' else c) c := by
  by_cases h : c = Char.ofNat 0
  · simp only [h, if_pos rfl]
    decide
  · simp only [if_neg h]

theorem parse_cmdline_toList (s : String) :
    (parse_cmdline s).toList =
      ((s.toList.map (fun c => if c = Char.ofNat 0 then ' ' else c)).reverse.dropWhile
          rust_char_is_whitespace).reverse := rfl

/-! ### Claim theorems -/

/-- C5: `parse_cmdline` replaces every NUL byte with a single ASCII space and
trims trailing whitespace; it is idempotent, and on the raw bytes
`"/bin/sh\0-c\0echo hi\0"` it returns exactly `"/bin/sh -c echo hi"`. -/
theorem c5_parse_cmdline_idempotent :
    (∀ s, parse_cmdline (parse_cmdline s) = parse_cmdline s) ∧
    parse_cmdline "/bin/sh\x00-c\x00echo hi\x00" = "/bin/sh -c echo hi" := by
  constructor
  · intro s
    set f : Char → Char := fun c => if c = Char.ofNat 0 then ' ' else c with hf
    set ws := rust_char_is_whitespace with hws
    have hR : (parse_cmdline s).toList =
        ((s.toList.map f).reverse.dropWhile ws).reverse :=
      parse_cmdline_toList s
    have hmem : ∀ x ∈ (parse_cmdline s).toList, f x = x := by
      intro x hx
      rw [hR] at hx
      have hx2 : x ∈ (s.toList.map f).reverse.dropWhile ws :=
        List.mem_reverse.mp hx
      have hx3 : x ∈ (s.toList.map f).reverse :=
        (List.dropWhile_sublist ws).mem hx2
      have hx4 : x ∈ s.toList.map f := List.mem_reverse.mp hx3
      obtain ⟨c, _, hc⟩ := List.mem_map.mp hx4
      rw [← hc]
      exact nul_map_idem c
    have hmap : (parse_cmdline s).toList.map f = (parse_cmdline s).toList := by
      calc (parse_cmdline s).toList.map f
          = (parse_cmdline s).toList.map id :=
            List.map_congr_left (fun a ha => hmem a ha)
        _ = (parse_cmdline s).toList := List.map_id _
    show trim_end (replace_nul (parse_cmdline s)) = parse_cmdline s
    have hrepl : replace_nul (parse_cmdline s) = parse_cmdline s := by
      show String.mk ((parse_cmdline s).toList.map f) = parse_cmdline s
      rw [hmap]
      rfl
    rw [hrepl]
    show String.mk
        (((parse_cmdline s).toList.reverse.dropWhile ws).reverse) =
      parse_cmdline s
    rw [hR, List.reverse_reverse, dropWhile_dropWhile_self]
    rfl
  · decide

/-- C4: `Matcher.is_match` returns true iff at least one pattern in the set
matches, case-insensitively, as a substring anywhere in the field selected by
the mode (name for Basename, commandline for Commandline); the empty pattern
set matches no process. -/
theorem c4_matcher_semantics (patterns : List String) (mode : MatchMode)
    (p : Process) :
    (Matcher.is_match { regex_set := patterns, mode := mode } p = true ↔
      ∃ pattern ∈ patterns,
        regex_matches pattern
          (match mode with
           | MatchMode.Basename => p.name
           | MatchMode.Commandline => p.commandline) = true) ∧
    Matcher.is_match { regex_set := [], mode := mode } p = false := by
  cases mode <;>
    simp [Matcher.is_match, RegexSet.is_match, List.any_eq_true]

/-- C10: the tracked set only shrinks and keeps its relative order: the
terminate phase retains an (order-preserving) sublist of the selected list,
every liveness poll retains a sublist of its input, and the tracked set after
`k + 1` polls is a sublist of the tracked set after `k` polls — hence every
tracked set is a sublist of the selected list; no process is ever added. -/
theorem c10_tracked_only_shrinks (w : World) (signal : Signal)
    (procs l : List Process) (t k : Nat) :
    List.Sublist (terminate_phase w signal procs).1 procs ∧
    List.Sublist (wait_poll w t l).1 l ∧
    List.Sublist (tracked_after w signal procs (k + 1))
      (tracked_after w signal procs k) ∧
    List.Sublist (tracked_after w signal procs k) procs := by
  have hterm : List.Sublist (terminate_phase w signal procs).1 procs := by
    rw [terminate_phase_fst]; exact List.filter_sublist procs
  have hpoll : ∀ (t : Nat) (l : List Process),
      List.Sublist (wait_poll w t l).1 l := by
    intro t l
    rw [wait_poll_fst]; exact List.filter_sublist l
  have hstep : ∀ k, List.Sublist (tracked_after w signal procs (k + 1))
      (tracked_after w signal procs k) := by
    intro k
    show List.Sublist (iter_tracked w (k + 1) 0 _) _
    rw [iter_tracked_succ_last]
    exact hpoll _ _
  refine ⟨hterm, hpoll t l, hstep k, ?_⟩
  induction k with
  | zero => exact hterm
  | succ k ih => exact (hstep k).trans ih

/-- C2 (amended): the run's success flag is characterized by
`run_success_spec` — every terminate-phase send handled and, when a (positive,
hence at least one poll) wait duration is set, either the tracked set emptied
within the wait window or force-kill was enabled and every kill-phase send to
the survivors was handled; needing force-kill with it disabled fails the run.
Moreover in the escalated case the run ends immediately after dispatching the
kill signals: the event trace is exactly the terminate sends, the liveness
polls of the wait window, and finally the kill dispatches, with no liveness
confirmation after them. -/
theorem c2_success_characterization (w : World) (opts : Options)
    (procs : List Process) :
    (opts.wait_time = none →
      (real_run w opts procs).1 = run_success_spec w opts procs) ∧
    (∀ fuel, opts.wait_time = some fuel → 1 ≤ fuel →
      (real_run w opts procs).1 = run_success_spec w opts procs) ∧
    (∀ fuel, opts.wait_time = some fuel → opts.kill = true →
      tracked_after w opts.terminate_signal procs fuel ≠ [] →
      (real_run w opts procs).2 =
        procs.map (fun p => Event.send opts.terminate_signal p.pid) ++
          poll_events w fuel 0
            (terminate_phase w opts.terminate_signal procs).1 ++
          (tracked_after w opts.terminate_signal procs fuel).map
            (fun p => Event.send opts.kill_signal p.pid)) := by
  refine ⟨?_, ?_, ?_⟩
  · intro hw
    simp only [real_run, run_success_spec, hw, terminate_phase_success,
      Bool.and_true]
  · intro fuel hw hf
    simp only [real_run, run_success_spec, hw]
    by_cases hempty : tracked_after w opts.terminate_signal procs fuel = []
    · rw [wait_loop_emptied w opts fuel _ _ 0 (by omega) hempty]
      rw [hempty]
      simp [terminate_phase_success]
    · rw [wait_loop_timeout w opts fuel _ _ 0 hempty]
      simp only [timeout_success, kill_phase_fst, terminate_phase_success]
      have hne : (tracked_after w opts.terminate_signal procs fuel).isEmpty
          = false := by
        simpa using hempty
      rw [hne]
      cases hk : opts.kill <;> simp [tracked_after]
  · intro fuel hw hkill hne
    simp only [real_run, hw]
    rw [wait_loop_timeout w opts fuel _ _ 0 hne]
    simp only [timeout_events, hkill, if_pos rfl, kill_phase_events,
      terminate_phase_events, List.append_assoc]
    simp [tracked_after]

/-- A process that every signal reaches and that never exits. -/
def stubborn_world : World :=
  { kill := fun _ _ => none, alive := fun _ _ => true }

/-- Policy: terminate with SIGTERM, wait (one poll round), then force-kill
with SIGKILL. -/
def escalating_options : Options :=
  { dry_run := false, kill := true, kill_signal := Signal.SIGKILL,
    match_mode := MatchMode.Basename, output_mode := OutputMode.Normal,
    terminate_signal := Signal.SIGTERM, user := none, wait_time := some 1 }

/-- A selected process for the escalation scenarios. -/
def stubborn_proc : Process :=
  { pid := 1, user_id := 0, name := "stub", cmdline := "stub" }

/-- C2 counterexample: with one process that accepts every signal but never
exits, a one-round wait and force-kill enabled, the run reports success even
though the process was never confirmed dead during the wait — the spec's
literal success condition ("successfully signaled+confirmed-dead when
waiting") is false there. -/
theorem c2_literal_spec_counterexample :
    (real_run stubborn_world escalating_options [stubborn_proc]).1 = true ∧
    spec_success_literal stubborn_world escalating_options [stubborn_proc]
      = false := by
  decide

/-- Witness for C2 at a concrete input. -/
theorem c2_success_characterization_witness :
    (real_run stubborn_world escalating_options [stubborn_proc]).1 =
      run_success_spec stubborn_world escalating_options [stubborn_proc] ∧
    (real_run stubborn_world escalating_options [stubborn_proc]).2 =
      [stubborn_proc].map
          (fun p => Event.send escalating_options.terminate_signal p.pid) ++
        poll_events stubborn_world 1 0
          (terminate_phase stubborn_world
            escalating_options.terminate_signal [stubborn_proc]).1 ++
        (tracked_after stubborn_world escalating_options.terminate_signal
            [stubborn_proc] 1).map
          (fun p => Event.send escalating_options.kill_signal p.pid) :=
  ⟨(c2_success_characterization stubborn_world escalating_options
      [stubborn_proc]).2.1 1 rfl (by decide),
   (c2_success_characterization stubborn_world escalating_options
      [stubborn_proc]).2.2 1 rfl rfl (by decide)⟩

/-- C8: with force-kill disabled, when the wait duration elapses with at
least one tracked process still alive, the run reports failure and the kill
signal is never sent: the only send syscalls of the whole run are the
terminate-phase sends, one per selected process. -/
theorem c8_gave_up (w : World) (opts : Options) (procs : List Process)
    (fuel : Nat) (hwait : opts.wait_time = some fuel)
    (hkill : opts.kill = false)
    (hsurv : tracked_after w opts.terminate_signal procs fuel ≠ []) :
    (real_run w opts procs).1 = false ∧
    (real_run w opts procs).2.filter Event.isSend =
      procs.map (fun p => Event.send opts.terminate_signal p.pid) := by
  have hrun := wait_loop_timeout w opts fuel
    (terminate_phase w opts.terminate_signal procs).1
    (terminate_phase w opts.terminate_signal procs).2.1 0 hsurv
  constructor
  · simp only [real_run, hwait, hrun, timeout_success, hkill,
      Bool.false_eq_true, if_neg]
    simp
  · simp only [real_run, hwait, hrun, timeout_events, hkill,
      Bool.false_eq_true, if_neg]
    rw [List.filter_append, List.filter_append, poll_events_no_send,
      terminate_phase_events]
    simp [List.filter_eq_self, Event.isSend]

/-- Policy: terminate with SIGTERM, wait (one poll round), force-kill
disabled. -/
def no_kill_options : Options :=
  { dry_run := false, kill := false, kill_signal := Signal.SIGKILL,
    match_mode := MatchMode.Basename, output_mode := OutputMode.Normal,
    terminate_signal := Signal.SIGTERM, user := none, wait_time := some 1 }

/-- Witness for C8 at a concrete input. -/
theorem c8_gave_up_witness :
    (real_run stubborn_world no_kill_options [stubborn_proc]).1 = false ∧
    (real_run stubborn_world no_kill_options [stubborn_proc]).2.filter
        Event.isSend =
      [stubborn_proc].map
        (fun p => Event.send no_kill_options.terminate_signal p.pid) :=
  c8_gave_up stubborn_world no_kill_options [stubborn_proc] 1 rfl rfl
    (by decide)

/-- Dropping a process that no longer exists (every send to it gets `ESRCH`
and every liveness poll finds it dead) from the middle of the wait loop's
tracked list does not change the computed success flag. -/
theorem wait_loop_dead_middle (w : World) (opts : Options) (p : Process)
    (hkill : ∀ signal, w.kill p.pid signal = some Errno.ESRCH)
    (halive : ∀ t, w.alive t p.pid = false) :
    ∀ (fuel : Nat) (a b : List Process) (success : Bool) (t : Nat),
      (wait_loop w opts fuel (a ++ p :: b) success t).1 =
        (wait_loop w opts fuel (a ++ b) success t).1 := by
  intro fuel a b success t
  cases fuel with
  | zero =>
    show (wait_loop w opts 0 _ success t).1 = (wait_loop w opts 0 _ success t).1
    simp only [wait_loop]
    cases hk : opts.kill
    · simp
    · simp only [if_pos rfl, kill_phase_fst, List.all_append, List.all_cons]
      have hp : send_with_error_handling w opts.kill_signal p = true := by
        simp [send_with_error_handling, Process.send, hkill opts.kill_signal]
      rw [hp]
      simp
  | succ fuel =>
    have hfilters : (wait_poll w t (a ++ p :: b)).1 =
        (wait_poll w t (a ++ b)).1 := by
      rw [wait_poll_fst, wait_poll_fst, List.filter_append,
        List.filter_append, List.filter_cons]
      simp [Process.is_alive, halive t]
    show (wait_loop w opts (fuel + 1) _ success t).1 =
      (wait_loop w opts (fuel + 1) _ success t).1
    simp only [wait_loop, hfilters]
    by_cases hempty : (wait_poll w t (a ++ b)).1.isEmpty
    · rw [if_pos hempty, if_pos hempty]
    · rw [if_neg hempty, if_neg hempty]

/-- C1 (amended): a process whose terminate-phase send returns `DoesNotExist`
does not mark the run as failed — the run's success flag equals the success
flag of the same run without that process — but it is NOT dropped from the
tracked set immediately: it survives the terminate phase's `retain` and is
removed by the first waiting-phase liveness poll, which finds it dead. -/
theorem c1_doesnotexist_kept (w : World) (opts : Options)
    (l1 l2 : List Process) (p : Process)
    (hkill : ∀ signal, w.kill p.pid signal = some Errno.ESRCH)
    (halive : ∀ t, w.alive t p.pid = false) :
    send_with_error_handling w opts.terminate_signal p = true ∧
    (terminate_phase w opts.terminate_signal (l1 ++ p :: l2)).1 =
      (terminate_phase w opts.terminate_signal l1).1 ++
        p :: (terminate_phase w opts.terminate_signal l2).1 ∧
    (real_run w opts (l1 ++ p :: l2)).1 = (real_run w opts (l1 ++ l2)).1 ∧
    p ∉ tracked_after w opts.terminate_signal (l1 ++ p :: l2) 1 := by
  have hswe : send_with_error_handling w opts.terminate_signal p = true := by
    simp [send_with_error_handling, Process.send, hkill opts.terminate_signal]
  have htracked : (terminate_phase w opts.terminate_signal (l1 ++ p :: l2)).1 =
      (terminate_phase w opts.terminate_signal l1).1 ++
        p :: (terminate_phase w opts.terminate_signal l2).1 := by
    rw [terminate_phase_fst, terminate_phase_fst, terminate_phase_fst,
      List.filter_append, List.filter_cons, hswe]
    simp
  have hsuccess_eq :
      (terminate_phase w opts.terminate_signal (l1 ++ p :: l2)).2.1 =
        (terminate_phase w opts.terminate_signal (l1 ++ l2)).2.1 := by
    rw [terminate_phase_success, terminate_phase_success, List.all_append,
      List.all_append, List.all_cons, hswe]
    simp
  refine ⟨hswe, htracked, ?_, ?_⟩
  · simp only [real_run]
    cases hw : opts.wait_time with
    | none => exact hsuccess_eq
    | some fuel =>
      simp only []
      have htr2 : (terminate_phase w opts.terminate_signal (l1 ++ l2)).1 =
          (terminate_phase w opts.terminate_signal l1).1 ++
            (terminate_phase w opts.terminate_signal l2).1 := by
        rw [terminate_phase_fst, terminate_phase_fst, terminate_phase_fst,
          List.filter_append]
      rw [htracked, htr2, hsuccess_eq]
      exact wait_loop_dead_middle w opts p hkill halive fuel _ _ _ 0
  · intro hmem
    have h1 : tracked_after w opts.terminate_signal (l1 ++ p :: l2) 1 =
        (wait_poll w 0
          (terminate_phase w opts.terminate_signal (l1 ++ p :: l2)).1).1 := rfl
    rw [h1, wait_poll_fst, List.mem_filter] at hmem
    have := hmem.2
    simp [Process.is_alive, halive 0] at this

/-- A world in which pid 7 no longer exists: every send gets `ESRCH`, every
poll finds it dead. -/
def vanished_world : World :=
  { kill := fun _ _ => some Errno.ESRCH, alive := fun _ _ => false }

/-- The already-gone process of the `DoesNotExist` scenarios. -/
def vanished_proc : Process :=
  { pid := 7, user_id := 0, name := "gone", cmdline := "gone" }

/-- C1 counterexample: a process whose terminate send returns `DoesNotExist`
is NOT dropped from the tracked set immediately — the terminate phase retains
it — and it DOES participate in the waiting phase's liveness polling: the
run's event trace contains a poll of its pid. -/
theorem c1_counterexample :
    (terminate_phase vanished_world Signal.SIGTERM [vanished_proc]).1 =
      [vanished_proc] ∧
    Event.poll 7 ∈
      (real_run vanished_world escalating_options [vanished_proc]).2 := by
  decide

/-- Witness for C1 at a concrete input. -/
theorem c1_doesnotexist_kept_witness :
    send_with_error_handling vanished_world
      escalating_options.terminate_signal vanished_proc = true ∧
    (terminate_phase vanished_world escalating_options.terminate_signal
        ([] ++ vanished_proc :: [])).1 =
      (terminate_phase vanished_world
          escalating_options.terminate_signal []).1 ++
        vanished_proc :: (terminate_phase vanished_world
          escalating_options.terminate_signal []).1 ∧
    (real_run vanished_world escalating_options
        ([] ++ vanished_proc :: [])).1 =
      (real_run vanished_world escalating_options ([] ++ [])).1 ∧
    vanished_proc ∉ tracked_after vanished_world
      escalating_options.terminate_signal ([] ++ vanished_proc :: []) 1 :=
  c1_doesnotexist_kept vanished_world escalating_options [] [] vanished_proc
    (fun _ => rfl) (fun _ => rfl)

/-- C6: `Process.send` maps the OS outcome exactly — `Ok` on acceptance,
`InvalidSignal` iff `EINVAL`, `NoPermission` iff `EPERM`, `DoesNotExist` iff
`ESRCH`, and `UnexpectedError` with its diagnostic message on any other
errno; and every non-`DoesNotExist` send failure in the terminate phase drops
that process from the tracked set, marks the whole run as failed, and lets
the engine continue with the remaining processes (the processes after it are
still signaled, in order). -/
theorem c6_send_taxonomy (w : World) (opts : Options) (p : Process)
    (signal : Signal) (l1 l2 : List Process) :
    (Process.send w p signal = Except.ok () ↔ w.kill p.pid signal = none) ∧
    (Process.send w p signal = Except.error KillError.InvalidSignal ↔
      w.kill p.pid signal = some Errno.EINVAL) ∧
    (Process.send w p signal = Except.error KillError.NoPermission ↔
      w.kill p.pid signal = some Errno.EPERM) ∧
    (Process.send w p signal = Except.error KillError.DoesNotExist ↔
      w.kill p.pid signal = some Errno.ESRCH) ∧
    (∀ desc, w.kill p.pid signal = some (Errno.other desc) →
      Process.send w p signal =
        Except.error (KillError.UnexpectedError ("errno " ++ desc))) ∧
    (∀ err, err ≠ KillError.DoesNotExist →
      Process.send w p opts.terminate_signal = Except.error err →
      send_with_error_handling w opts.terminate_signal p = false ∧
      (terminate_phase w opts.terminate_signal (l1 ++ p :: l2)).1 =
        (terminate_phase w opts.terminate_signal l1).1 ++
          (terminate_phase w opts.terminate_signal l2).1 ∧
      (terminate_phase w opts.terminate_signal (l1 ++ p :: l2)).2.2 =
        (terminate_phase w opts.terminate_signal l1).2.2 ++
          Event.send opts.terminate_signal p.pid ::
            (terminate_phase w opts.terminate_signal l2).2.2 ∧
      (real_run w opts (l1 ++ p :: l2)).1 = false) := by
  refine ⟨?_, ?_, ?_, ?_, ?_, ?_⟩
  · unfold Process.send
    cases hk : w.kill p.pid signal with
    | none => simp
    | some e => cases e <;> simp
  · unfold Process.send
    cases hk : w.kill p.pid signal with
    | none => simp
    | some e => cases e <;> simp
  · unfold Process.send
    cases hk : w.kill p.pid signal with
    | none => simp
    | some e => cases e <;> simp
  · unfold Process.send
    cases hk : w.kill p.pid signal with
    | none => simp
    | some e => cases e <;> simp
  · intro desc hk
    unfold Process.send
    rw [hk]
  · intro err hne hsend
    have hswe : send_with_error_handling w opts.terminate_signal p = false := by
      unfold send_with_error_handling
      rw [hsend]
      cases err with
      | DoesNotExist => exact absurd rfl hne
      | InvalidSignal => rfl
      | NoPermission => rfl
      | UnexpectedError m => rfl
    refine ⟨hswe, ?_, ?_, ?_⟩
    · rw [terminate_phase_fst, terminate_phase_fst, terminate_phase_fst,
        List.filter_append, List.filter_cons, hswe]
      simp
    · rw [terminate_phase_events, terminate_phase_events,
        terminate_phase_events, List.map_append, List.map_cons]
    · have hall : (l1 ++ p :: l2).all
          (send_with_error_handling w opts.terminate_signal) = false := by
        rw [List.all_append, List.all_cons, hswe]
        simp
      simp only [real_run]
      cases hw : opts.wait_time with
      | none => rw [terminate_phase_success]; exact hall
      | some fuel =>
        simp only []
        rw [terminate_phase_success, hall]
        exact wait_loop_false w opts fuel _ 0

/-- A world in which the caller lacks permission to signal anything. -/
def forbidden_world : World :=
  { kill := fun _ _ => some Errno.EPERM, alive := fun _ _ => true }

/-- Witness for C6 at a concrete input (`EPERM` → `NoPermission`, which
abandons the process and fails the run). -/
theorem c6_send_taxonomy_witness :
    (Process.send forbidden_world stubborn_proc Signal.SIGTERM =
        Except.error KillError.NoPermission ↔
      forbidden_world.kill stubborn_proc.pid Signal.SIGTERM =
        some Errno.EPERM) ∧
    send_with_error_handling forbidden_world
      escalating_options.terminate_signal stubborn_proc = false ∧
    (real_run forbidden_world escalating_options
        ([] ++ stubborn_proc :: [])).1 = false := by
  have h := c6_send_taxonomy forbidden_world escalating_options stubborn_proc
    Signal.SIGTERM [] []
  have habandon := h.2.2.2.2.2 KillError.NoPermission (by decide) rfl
  exact ⟨h.2.2.1, habandon.1, habandon.2.2.2⟩

/-- C7: with `dry_run` set, no signal-send call and no liveness poll is ever
issued; the run returns success and reports every selected process, in order,
as one that would be signaled.  (The first conjunct records that options
derived from the CLI always show normal output under `dry_run`: dry-run
forces verbose mode, overriding `--quiet`.) -/
theorem c7_dry_run_sends_nothing (w : World) (opts : Options)
    (procs : List Process) (hdry : opts.dry_run = true)
    (hshow : opts.output_mode.show_normal = true) :
    (∀ v q, output_mode_from true v q = some OutputMode.Verbose) ∧
    run w opts procs =
      (true,
       procs.map (fun p => Event.wouldSend opts.terminate_signal p.pid)) ∧
    (∀ e ∈ (run w opts procs).2,
      Event.isSend e = false ∧ Event.isPoll e = false) := by
  have hrun : run w opts procs =
      (true,
       procs.map (fun p => Event.wouldSend opts.terminate_signal p.pid)) := by
    unfold run dry_run
    rw [hdry, if_pos rfl, hshow]
    simp
  refine ⟨fun v q => by cases v <;> cases q <;> rfl, hrun, ?_⟩
  intro e he
  rw [hrun] at he
  obtain ⟨x, _, hx⟩ := List.mem_map.mp he
  rw [← hx]
  exact ⟨rfl, rfl⟩

/-- Policy: dry run (output mode is forced verbose by the CLI derivation). -/
def dry_run_options : Options :=
  { dry_run := true, kill := true, kill_signal := Signal.SIGKILL,
    match_mode := MatchMode.Basename, output_mode := OutputMode.Verbose,
    terminate_signal := Signal.SIGTERM, user := none, wait_time := some 1 }

/-- Witness for C7 at a concrete input. -/
theorem c7_dry_run_sends_nothing_witness :
    run stubborn_world dry_run_options [stubborn_proc] =
      (true,
       [stubborn_proc].map
         (fun p => Event.wouldSend dry_run_options.terminate_signal p.pid)) :=
  (c7_dry_run_sends_nothing stubborn_world dry_run_options [stubborn_proc]
    rfl rfl).2.1

theorem process_iterator_append (a b : List (Option EntryData)) :
    process_iterator (a ++ b) = process_iterator a ++ process_iterator b := by
  induction a with
  | nil => rfl
  | cons x rest ih =>
    cases x with
    | none => simpa [process_iterator] using ih
    | some e =>
      by_cases h : (e.is_dir && has_numeric_name e) = true <;>
        simp [process_iterator, h, ih]

theorem mem_process_iterator (entries : List (Option EntryData))
    (r : Except String Process) (hr : r ∈ process_iterator entries) :
    ∃ ed, some ed ∈ entries ∧ r = Process.from_entry ed := by
  induction entries with
  | nil => cases hr
  | cons x rest ih =>
    cases x with
    | none =>
      obtain ⟨ed, h1, h2⟩ := ih hr
      exact ⟨ed, List.mem_cons_of_mem _ h1, h2⟩
    | some e =>
      by_cases h : (e.is_dir && has_numeric_name e) = true
      · rw [show process_iterator (some e :: rest) =
            Process.from_entry e :: process_iterator rest by
              simp [process_iterator, h]] at hr
        cases List.mem_cons.mp hr with
        | inl heq => exact ⟨e, List.mem_cons_self _ _, heq⟩
        | inr htail =>
          obtain ⟨ed, h1, h2⟩ := ih htail
          exact ⟨ed, List.mem_cons_of_mem _ h1, h2⟩
      · rw [show process_iterator (some e :: rest) =
            process_iterator rest by simp [process_iterator, h]] at hr
        obtain ⟨ed, h1, h2⟩ := ih hr
        exact ⟨ed, List.mem_cons_of_mem _ h1, h2⟩

theorem all_processes_append (a b : List (Option EntryData)) (m : Matcher) :
    all_processes (a ++ b) m = all_processes a m ++ all_processes b m := by
  unfold all_processes
  rw [process_iterator_append, List.filterMap_append, List.filter_append]

/-- C3: for every enumeration whose process-table root can be opened, the
surfaced process list contains only successfully resolved snapshots — every
element comes from an entry that `from_entry` resolved (and that the matcher
selected); a `read_dir` error item, a non-directory or non-numeric entry, or
an entry whose resolution fails is silently skipped, leaving the surfaced
list unchanged; a hard error is returned only when the root cannot be opened
at all. -/
theorem c3_enumeration_skips_failures (m : Matcher)
    (entries l1 l2 : List (Option EntryData)) (e : EntryData) :
    Process.all none = Except.error "Failed to read /proc" ∧
    (∀ es, Process.all (some es) = Except.ok (process_iterator es)) ∧
    (∀ p ∈ all_processes entries m,
      ∃ ed, some ed ∈ entries ∧ Process.from_entry ed = Except.ok p ∧
        m.is_match p = true) ∧
    all_processes (l1 ++ none :: l2) m = all_processes (l1 ++ l2) m ∧
    ((e.is_dir = false ∨ has_numeric_name e = false ∨
        (∃ msg, Process.from_entry e = Except.error msg)) →
      all_processes (l1 ++ some e :: l2) m = all_processes (l1 ++ l2) m) := by
  refine ⟨rfl, fun es => rfl, ?_, ?_, ?_⟩
  · intro p hp
    unfold all_processes at hp
    have hp1 := (List.mem_filter.mp hp).1
    have hmatch := (List.mem_filter.mp hp).2
    obtain ⟨r, hr, hro⟩ := List.mem_filterMap.mp hp1
    obtain ⟨ed, hed, hred⟩ := mem_process_iterator entries r hr
    refine ⟨ed, hed, ?_, hmatch⟩
    rw [← hred]
    cases r with
    | ok q => simp only [Except.toOption] at hro; rw [Option.some.injEq] at hro; rw [hro]
    | error msg => simp [Except.toOption] at hro
  · rw [all_processes_append, all_processes_append]
    have : all_processes (none :: l2) m = all_processes l2 m := by
      unfold all_processes
      rfl
    rw [this]
  · intro hfail
    rw [all_processes_append, all_processes_append]
    have hskip : all_processes (some e :: l2) m = all_processes l2 m := by
      unfold all_processes
      rcases hfail with hdir | hnum | ⟨msg, herr⟩
      · rw [show process_iterator (some e :: l2) = process_iterator l2 by
          simp [process_iterator, hdir]]
      · rw [show process_iterator (some e :: l2) = process_iterator l2 by
          simp [process_iterator, hnum]]
      · by_cases h : (e.is_dir && has_numeric_name e) = true
        · rw [show process_iterator (some e :: l2) =
              Process.from_entry e :: process_iterator l2 by
                simp [process_iterator, h]]
          rw [herr]
          simp [Except.toOption]
        · rw [show process_iterator (some e :: l2) = process_iterator l2 by
            simp [process_iterator, h]]
    rw [hskip]

/-- An unreadable entry of the `/proc` scan: its executable link cannot be
resolved (for instance, permission denied). -/
def unreadable_entry : EntryData :=
  { file_name := "99", is_dir := true, exe_link := none,
    cmdline_file := some "", stat_uid := some 0 }

/-- A matcher that selects everything named with a lowercase letter. -/
def demo_matcher : Matcher :=
  { regex_set := ["foo"], mode := MatchMode.Basename }

/-- Witness for C3 at a concrete input: an entry whose resolution fails is
skipped without surfacing an error. -/
theorem c3_enumeration_skips_failures_witness :
    Process.all none = Except.error "Failed to read /proc" ∧
    all_processes ([] ++ some unreadable_entry :: []) demo_matcher =
      all_processes ([] ++ []) demo_matcher :=
  ⟨(c3_enumeration_skips_failures demo_matcher [] [] [] unreadable_entry).1,
   (c3_enumeration_skips_failures demo_matcher [] [] []
      unreadable_entry).2.2.2.2
     (Or.inr (Or.inr ⟨"Failed to determine executable of PID 99", rfl⟩))⟩

/-- Discovered entry for the process named `foo`. -/
def foo_entry : EntryData :=
  { file_name := "1", is_dir := true, exe_link := some "/usr/bin/foo",
    cmdline_file := some "foo", stat_uid := some 0 }

/-- Discovered entry for the process named `barfoo`. -/
def barfoo_entry : EntryData :=
  { file_name := "2", is_dir := true, exe_link := some "/usr/bin/barfoo",
    cmdline_file := some "barfoo", stat_uid := some 0 }

/-- Discovered entry for the process named `baz`. -/
def baz_entry : EntryData :=
  { file_name := "3", is_dir := true, exe_link := some "/usr/bin/baz",
    cmdline_file := some "baz", stat_uid := some 0 }

/-- The resolved snapshot of `foo`. -/
def foo_proc : Process :=
  { pid := 1, user_id := 0, name := "foo", cmdline := "foo" }

/-- The resolved snapshot of `barfoo`. -/
def barfoo_proc : Process :=
  { pid := 2, user_id := 0, name := "barfoo", cmdline := "barfoo" }

/-- C9: within each signalling phase the sends are issued sequentially in
process-discovery order — the event trace of the terminate phase (and of the
kill phase) is exactly the in-order map of one send per tracked process, and
the wait phase polls in the same order; and for discovered processes `foo`,
`barfoo`, `baz` in that order with the single pattern "foo" in basename mode,
the selected list is exactly `[foo, barfoo]` in that order, `baz` excluded. -/
theorem c9_discovery_order :
    (∀ (w : World) (signal : Signal) (procs : List Process),
      (terminate_phase w signal procs).2.2 =
        procs.map (fun p => Event.send signal p.pid)) ∧
    (∀ (w : World) (signal : Signal) (procs : List Process),
      (kill_phase w signal procs).2 =
        procs.map (fun p => Event.send signal p.pid)) ∧
    (∀ (w : World) (t : Nat) (procs : List Process),
      (wait_poll w t procs).2 = procs.map (fun p => Event.poll p.pid)) ∧
    all_processes [some foo_entry, some barfoo_entry, some baz_entry]
        demo_matcher = [foo_proc, barfoo_proc] := by
  refine ⟨terminate_phase_events, kill_phase_events, wait_poll_events, ?_⟩
  decide

end GracefulShutdown
